import Mathlib

/-!
Verification of the request-execution and response-protocol layer of the
`penpot-api-client` TypeScript library, shallowly embedded in Lean 4.

The embedded source files are:
  * `src/client/_internals/request.ts`  (`sendRequest`, `camelToKebab`,
    `authMiddleware`, `debugMiddleware`, middleware loops, body shaping,
    status check, content-type dispatch)
  * `src/client/_internals/sse.ts`      (`handleSseResponse`)
  * `src/client/errors.ts`              (`ApiHttpError`, `ApiClientError`)
  * `src/client/requestBuilder.ts`      (`RequestBuilder.exec`)

JavaScript runtime values (bodies, middleware-thrown values, JSON) are
modelled by the inductive `JsValue`; `JSON.parse` is modelled by the
executable `jsonParse`; the `fetch` transport and the SSE text segmenter
(`eventsource-parser`, an external dependency) are abstracted: the
transport is an explicit parameter and an event-stream body is the list
of already-segmented events.
-/

/-- Model of a JavaScript runtime value as far as the client manipulates
them: JSON values plus `undefined` and binary payloads
(`Uint8Array`/`Blob`, merged into one constructor since the code treats
them alike). -/
inductive JsValue where
  | undef : JsValue
  | null : JsValue
  | bool (b : Bool) : JsValue
  | num (n : Int) : JsValue
  | str (s : String) : JsValue
  | arr (xs : List JsValue) : JsValue
  | obj (fields : List (String × JsValue)) : JsValue
  | binary (bs : List Nat) : JsValue
deriving Repr

/-- First-match association lookup, modelling JavaScript property access
on an object literal (keys are unique in a JS object). -/
def jsLookup (fields : List (String × JsValue)) (k : String) : Option JsValue :=
  match fields with
  | [] => none
  | (k2, v) :: rest => if k2 = k then some v else jsLookup rest k

/-- JavaScript truthiness of a modelled value. -/
def jsTruthy : JsValue → Bool
  | .undef => false
  | .null => false
  | .bool b => b
  | .num n => n ≠ 0
  | .str s => s ≠ ""
  | .arr _ => true
  | .obj _ => true
  | .binary _ => true

mutual

/-- Model of JavaScript `String(v)` coercion for the values above. -/
def jsToString : JsValue → String
  | .undef => "undefined"
  | .null => "null"
  | .bool b => if b then "true" else "false"
  | .num n => toString n
  | .str s => s
  | .arr xs => jsJoinComma xs
  | .obj _ => "[object Object]"
  | .binary bs => String.intercalate "," (bs.map toString)

/-- `Array.prototype.toString`: elements joined by commas, with `null`
and `undefined` elements rendered as the empty string. -/
def jsJoinComma : List JsValue → String
  | [] => ""
  | [x] => jsElemString x
  | x :: y :: rest => jsElemString x ++ "," ++ jsJoinComma (y :: rest)

/-- One array element under `Array.prototype.join`. -/
def jsElemString : JsValue → String
  | .undef => ""
  | .null => ""
  | v => jsToString v

end

/-- JavaScript `a || b` on strings: `b` when `a` is falsy (empty). -/
def jsOrString (a b : String) : String :=
  if a = "" then b else a

section JsonParsing

/-- The left-brace character, `Char.ofNat 123`. -/
def braceL : Char := Char.ofNat 123

/-- The right-brace character, `Char.ofNat 125`. -/
def braceR : Char := Char.ofNat 125

/-- Skip JSON whitespace. -/
def skipWs : List Char → List Char
  | [] => []
  | c :: cs =>
    if c = ' ' ∨ c = '\n' ∨ c = '\t' ∨ c = '\r' then skipWs cs else c :: cs

/-- Does the character list start with the given characters? -/
def charsStart : List Char → List Char → Bool
  | _, [] => true
  | [], _ :: _ => false
  | c :: cs, d :: ds => c = d && charsStart cs ds

/-- Substring containment on character lists (models `String.includes`). -/
def charsIncl : List Char → List Char → Bool
  | [], sub => sub.isEmpty
  | c :: cs, sub => charsStart (c :: cs) sub || charsIncl cs sub

/-- Model of JavaScript `string.includes(sub)`. -/
def strIncludes (s sub : String) : Bool :=
  charsIncl s.data sub.data

/-- Parse a JSON string body after the opening quote; returns the string
and the remaining characters after the closing quote.  Handles the common
escapes; our concrete inputs use none of them. -/
def jsonStringChars : Nat → List Char → Option (String × List Char)
  | 0, _ => none
  | _, [] => none
  | fuel + 1, c :: cs =>
    if c = '"' then some ("", cs)
    else if c = '\\' then
      match cs with
      | [] => none
      | e :: cs2 =>
        let dec : Option Char :=
          if e = '"' then some '"'
          else if e = '\\' then some '\\'
          else if e = '/' then some '/'
          else if e = 'n' then some '\n'
          else if e = 't' then some '\t'
          else if e = 'r' then some '\r'
          else none
        match dec with
        | none => none
        | some d =>
          match jsonStringChars fuel cs2 with
          | some (s, rest) => some (⟨d :: s.data⟩, rest)
          | none => none
    else
      match jsonStringChars fuel cs with
      | some (s, rest) => some (⟨c :: s.data⟩, rest)
      | none => none

/-- Parse a run of decimal digits. -/
def jsonDigits : List Char → Option (Nat × List Char)
  | cs =>
    let ds := cs.takeWhile (fun c => c.isDigit)
    let rest := cs.dropWhile (fun c => c.isDigit)
    if ds.isEmpty then none
    else some (ds.foldl (fun acc c => acc * 10 + (c.toNat - 48)) 0, rest)

/-- A request to the recursive-descent JSON parser: parse one value,
the items of an array after its `[`, or the fields of an object after
its opening brace. -/
inductive PReq where
  | val (cs : List Char)
  | items (cs : List Char)
  | fields (cs : List Char)

/-- A result from the recursive-descent JSON parser. -/
inductive PRes where
  | val (v : JsValue) (rest : List Char)
  | items (xs : List JsValue) (rest : List Char)
  | fields (fs : List (String × JsValue)) (rest : List Char)

/-- Fuel-indexed recursive-descent parser modelling `JSON.parse`
(restricted to integer numerals).  A single structurally recursive
function so that concrete runs reduce definitionally. -/
def jsonRun : Nat → PReq → Option PRes
  | 0, _ => none
  | fuel + 1, .val cs0 =>
    match skipWs cs0 with
    | [] => none
    | c :: cs =>
      if c = 'n' then
        if charsStart cs ['u', 'l', 'l'] then some (.val .null (cs.drop 3)) else none
      else if c = 't' then
        if charsStart cs ['r', 'u', 'e'] then some (.val (.bool true) (cs.drop 3)) else none
      else if c = 'f' then
        if charsStart cs ['a', 'l', 's', 'e'] then some (.val (.bool false) (cs.drop 4)) else none
      else if c = '"' then
        match jsonStringChars (cs.length + 1) cs with
        | some (s, rest) => some (.val (.str s) rest)
        | none => none
      else if c = '[' then
        match skipWs cs with
        | ']' :: rest => some (.val (.arr []) rest)
        | cs2 =>
          match jsonRun fuel (.items cs2) with
          | some (.items xs rest) => some (.val (.arr xs) rest)
          | _ => none
      else if c = braceL then
        match skipWs cs with
        | c2 :: rest =>
          if c2 = braceR then some (.val (.obj []) rest)
          else
            match jsonRun fuel (.fields (c2 :: rest)) with
            | some (.fields fs rest2) => some (.val (.obj fs) rest2)
            | _ => none
        | [] => none
      else if c = '-' then
        match jsonDigits cs with
        | some (n, rest) => some (.val (.num (-(n : Int))) rest)
        | none => none
      else if c.isDigit then
        match jsonDigits (c :: cs) with
        | some (n, rest) => some (.val (.num (n : Int)) rest)
        | none => none
      else none
  | fuel + 1, .items cs =>
    match jsonRun fuel (.val cs) with
    | some (.val v rest) =>
      (match skipWs rest with
      | ',' :: rest2 =>
        match jsonRun fuel (.items rest2) with
        | some (.items xs rest3) => some (.items (v :: xs) rest3)
        | _ => none
      | ']' :: rest2 => some (.items [v] rest2)
      | _ => none)
    | _ => none
  | fuel + 1, .fields cs =>
    match skipWs cs with
    | '"' :: cs2 =>
      match jsonStringChars (cs2.length + 1) cs2 with
      | none => none
      | some (k, rest) =>
        match skipWs rest with
        | ':' :: rest2 =>
          match jsonRun fuel (.val rest2) with
          | some (.val v rest3) =>
            (match skipWs rest3 with
            | ',' :: rest4 =>
              match jsonRun fuel (.fields rest4) with
              | some (.fields fs rest5) => some (.fields ((k, v) :: fs) rest5)
              | _ => none
            | c3 :: rest4 =>
              if c3 = braceR then some (.fields [(k, v)] rest4) else none
            | [] => none)
          | _ => none
        | _ => none
    | _ => none

/-- Model of `JSON.parse`: succeeds only when the whole input is one JSON
value (plus surrounding whitespace). -/
def jsonParse (s : String) : Option JsValue :=
  match jsonRun (2 * s.length + 4) (.val s.data) with
  | some (.val v rest) => if (skipWs rest).isEmpty then some v else none
  | _ => none

end JsonParsing

/-- ASCII lowercase of one character (kernel-reducible). -/
def charLower (c : Char) : Char :=
  if c.isUpper then Char.ofNat (c.toNat + 32) else c

/-- ASCII lowercase of a string, via its character list. -/
def lowerStr (s : String) : String :=
  ⟨s.data.map charLower⟩

/-- Model of JavaScript `string.startsWith(pre)`. -/
def strStarts (s pre : String) : Bool :=
  charsStart s.data pre.data

/-- Model of JavaScript `string.substring(n)` for ASCII content. -/
def strDrop (s : String) (n : Nat) : String :=
  ⟨s.data.drop n⟩

section HeadersModel

/-- The fetch `Headers` object, modelled as an association list with
case-insensitive keys. -/
abbrev Hdrs := List (String × String)

/-- `headers.get(k)` (case-insensitive). -/
def hget (hs : Hdrs) (k : String) : Option String :=
  (hs.find? (fun p => lowerStr p.1 = lowerStr k)).map (·.2)

/-- `headers.set(k, v)`: replace any entry with the same (case-insensitive)
key by the new pair. -/
def hset (hs : Hdrs) (k v : String) : Hdrs :=
  hs.filter (fun p => lowerStr p.1 ≠ lowerStr k) ++ [(k, v)]

/-- `headers.delete(k)`. -/
def hdel (hs : Hdrs) (k : String) : Hdrs :=
  hs.filter (fun p => lowerStr p.1 ≠ lowerStr k)

/-- `headers.has(k)`. -/
def hhas (hs : Hdrs) (k : String) : Bool :=
  (hs.find? (fun p => lowerStr p.1 = lowerStr k)).isSome

end HeadersModel

/-- The errors that can escape `sendRequest`, modelling
`src/client/errors.ts` plus raw (non-taxonomy) JavaScript errors such as
the `SyntaxError` a rejected `response.json()` produces. -/
inductive ExecError where
  | apiHttp (status : Nat) (statusText : String) (details : JsValue)
  | apiClient (message : String) (cause : Option JsValue)
  | jsError (name : String) (message : String)
deriving Repr

/-- Membership in the documented error taxonomy (`ApiError` subclasses):
`ApiHttpError` or `ApiClientError`. -/
def ExecError.isTaxonomy : ExecError → Bool
  | .apiHttp _ _ _ => true
  | .apiClient _ _ => true
  | .jsError _ _ => false

/-- The message string of a modelled error. -/
def ExecError.message : ExecError → String
  | .apiHttp status statusText _ => "HTTP Error: " ++ toString status ++ " " ++ statusText
  | .apiClient m _ => m
  | .jsError _ m => m

section SseModel

/-- One event as delivered by the external `eventsource-parser`
dependency: `isEvent` models `event.type === "event"` (as opposed to a
reconnect-interval callback), `name` models `event.event`, `data` models
`event.data`. -/
structure SseEvent where
  isEvent : Bool
  name : Option String
  data : Option String
deriving Repr, DecidableEq

/-- Truthiness of `event.data` in the guard `event.data`. -/
def sseDataTruthy : Option String → Bool
  | some s => s ≠ ""
  | none => false

/-- `sse.ts` lines 27–58: processing of the data field of an `end` event.
`JSON.parse` failure rejects naming the data; a parsed value that is not
a non-empty array whose first element is a `~u`-prefixed string rejects
naming the data; otherwise resolve `\x7b fileId \x7d` with the prefix
stripped. -/
def sseEndResult (data : String) : Except ExecError JsValue :=
  match jsonParse data with
  | none =>
    .error (.apiClient ("Failed to parse SSE 'end' event data: " ++ data)
      (some (.str "SyntaxError")))
  | some parsedArray =>
    match parsedArray with
    | .arr (first :: _) =>
      match first with
      | .str taggedId =>
        if strStarts taggedId "~u" then
          .ok (.obj [("fileId", .str (strDrop taggedId 2))])
        else
          .error (.apiClient ("Unexpected SSE 'end' event data format: " ++ data) none)
      | _ => .error (.apiClient ("Unexpected SSE 'end' event data format: " ++ data) none)
    | _ => .error (.apiClient ("Unexpected SSE 'end' event data format: " ++ data) none)

/-- `sse.ts` lines 62–77: processing of the data field of an `error`
event. -/
def sseErrorResult (data : String) : ExecError :=
  match jsonParse data with
  | some errorData =>
    .apiClient "Server sent an error event in the SSE stream" (some errorData)
  | none =>
    .apiClient "Server sent an unparsable error event in the SSE stream" (some (.str data))

/-- The promise settlement of `handleSseResponse` over the segmented
event sequence: the first qualifying `end` or `error` event settles the
promise (later events cannot re-settle it); if the stream is exhausted
first, `processStream` rejects with the unexpected-end `ApiClientError`
(`sse.ts` lines 84–107). -/
def runSseEvents : List SseEvent → Except ExecError JsValue
  | [] =>
    .error (.apiClient
      "SSE stream ended unexpectedly without a valid 'end' event containing the file ID."
      none)
  | e :: rest =>
    if e.isEvent && e.name == some "end" && sseDataTruthy e.data then
      sseEndResult (e.data.getD "")
    else if e.isEvent && e.name == some "error" && sseDataTruthy e.data then
      .error (sseErrorResult (e.data.getD ""))
    else runSseEvents rest

end SseModel

section ResponseModel

/-- A fetch response body.  A body meant as an event stream is modelled
as the list of events the external segmenter delivers for it; a body of
any other shape fed to the SSE reader yields no recognized events. -/
inductive RespBody where
  | nullBody : RespBody
  | text (s : String) : RespBody
  | bytes (bs : List Nat) : RespBody
  | stream (events : List SseEvent) : RespBody
deriving Repr

/-- `response.text()`. -/
def RespBody.asText : RespBody → String
  | .nullBody => ""
  | .text s => s
  | .bytes bs => String.mk (bs.map Char.ofNat)
  | .stream _ => ""

/-- `response.arrayBuffer()` as a byte list. -/
def RespBody.asBytes : RespBody → List Nat
  | .nullBody => []
  | .text s => s.data.map Char.toNat
  | .bytes bs => bs
  | .stream _ => []

/-- A fetch `Response`. -/
structure ResponseM where
  status : Nat
  statusText : String
  headers : Hdrs
  body : RespBody

/-- `response.ok`: status in the inclusive range 200–299. -/
def responseOk (status : Nat) : Bool :=
  200 ≤ status && status ≤ 299

/-- `sendRequest` lines 389–396: `try { await response.json() } catch
{ await response.text() }` on the error body.  `response.json()`
consumes a non-null body before `JSON.parse` can fail, so when the body
is non-null and unparseable the catch's `response.text()` rejects with a
raw `TypeError` (body already consumed) that escapes unwrapped.  Only a
null body — which is never disturbed — reaches the text fallback
successfully, yielding the empty string. -/
def errorDetailsOutcome (b : RespBody) : Except ExecError JsValue :=
  match b with
  | .nullBody => .ok (.str "")
  | b2 =>
    match jsonParse b2.asText with
    | some j => .ok j
    | none => .error (.jsError "TypeError" "Body already consumed")

/-- `sse.ts` lines 18–21 and 81–108: a null body rejects immediately;
otherwise the stream's events are processed. -/
def handleSseResponse (r : ResponseM) : Except ExecError JsValue :=
  match r.body with
  | .nullBody => .error (.apiClient "SSE response body is null." none)
  | .stream evs => runSseEvents evs
  | .text _ => runSseEvents []
  | .bytes _ => runSseEvents []

/-- The classification the sequential content-type checks of
`sendRequest` lines 401–419 perform. -/
inductive ContentKind where
  | json | binaryKind | eventStream | plainText
deriving Repr, DecidableEq

/-- `sendRequest` lines 402–419: the decoder chosen from the declared
content type, by the source's sequential `includes` tests. -/
def classifyContentType (ct : String) : ContentKind :=
  if strIncludes ct "application/json" then .json
  else if strIncludes ct "application/octet-stream" then .binaryKind
  else if strIncludes ct "text/event-stream" then .eventStream
  else .plainText

/-- The decode step for one `ContentKind`.  The `json` case models the
unguarded `await response.json()`: an unparseable body raises a raw
`SyntaxError`, not a taxonomy error. -/
def applyDecoder (k : ContentKind) (r : ResponseM) : Except ExecError JsValue :=
  match k with
  | .json =>
    match jsonParse r.body.asText with
    | some j => .ok j
    | none => .error (.jsError "SyntaxError" ("Unexpected token in JSON: " ++ r.body.asText))
  | .binaryKind => .ok (.binary r.body.asBytes)
  | .eventStream => handleSseResponse r
  | .plainText => .ok (.str r.body.asText)

/-- `sendRequest` lines 388–419: status check, then content
classification and decode. -/
def handleResponse (r : ResponseM) : Except ExecError JsValue :=
  if !responseOk r.status then
    match errorDetailsOutcome r.body with
    | .ok details => .error (.apiHttp r.status r.statusText details)
    | .error e => .error e
  else
    let contentType := (hget r.headers "content-type").getD ""
    applyDecoder (classifyContentType contentType) r

end ResponseModel

section RequestModel

/-- One part of a multipart form body, in append order. -/
inductive FormPart where
  | field (name value : String)
  | filePart (name : String) (content : List Nat) (filename : String)
deriving Repr

/-- An outgoing request body: a JSON-serialized payload (kept as the
value that was serialized) or a multipart form. -/
inductive BodyM where
  | jsonBody (v : JsValue)
  | formBody (parts : List FormPart)
deriving Repr

/-- A fetch `Request`. -/
structure RequestM where
  method : String
  url : String
  headers : Hdrs
  body : Option BodyM

/-- `camelToKebab` (`request.ts` lines 171–173): the regex inserts a
hyphen in front of every ASCII capital and the result is lowercased. -/
def camelToKebabChars : List Char → List Char
  | [] => []
  | c :: cs =>
    if c.isUpper then '-' :: charLower c :: camelToKebabChars cs
    else c :: camelToKebabChars cs

/-- String-level `camelToKebab`. -/
def camelToKebab (s : String) : String :=
  ⟨camelToKebabChars s.data⟩

/-- `request.ts` lines 284–288: the payload is a file upload when it is
a truthy object whose `file` property is a `Uint8Array` or `Blob`. -/
def isFileUpload (payload : Option JsValue) : Bool :=
  match payload with
  | some (.obj fields) =>
    match jsLookup fields "file" with
    | some (.binary _) => true
    | _ => false
  | _ => false

/-- The bytes of a binary payload value. -/
def fileBytes : JsValue → List Nat
  | .binary bs => bs
  | _ => []

/-- `request.ts` lines 290–316: build the multipart form from a
file-bearing payload.  Non-`file` fields with defined values are appended
in order with kebab-cased names and `String(...)`-coerced values; the
file is appended last under the filename `String(params.name) || "untitled"`. -/
def buildForm (fields : List (String × JsValue)) : List FormPart :=
  let params := fields.filter (fun p => p.1 ≠ "file")
  let formFields := params.filterMap (fun p =>
    match p.2 with
    | .undef => none
    | v => some (FormPart.field (camelToKebab p.1) (jsToString v)))
  let file := (jsLookup fields "file").getD .undef
  let filename := jsOrString (jsToString ((jsLookup params "name").getD .undef)) "untitled"
  formFields ++ [FormPart.filePart "file" (fileBytes file) filename]

/-- `request.ts` lines 280–324: body shaping.  Returns the final body
and final headers. -/
def shapeBody (payload : Option JsValue) (headers : Hdrs) : Option BodyM × Hdrs :=
  if isFileUpload payload then
    match payload with
    | some (.obj fields) => (some (.formBody (buildForm fields)), hdel headers "Content-Type")
    | _ => (none, headers)
  else
    match payload with
    | some p =>
      if jsTruthy p then
        (some (.jsonBody p),
          if hhas headers "Content-Type" then headers
          else hset headers "Content-Type" "application/json")
      else (none, headers)
    | none => (none, headers)

end RequestModel

section MiddlewareModel

/-- A `FetchMiddleware` entry: optional request and response hooks, each
of which may throw an arbitrary JavaScript value. -/
structure MwEntry where
  onRequest : Option (RequestM → Except JsValue RequestM)
  onResponse : Option (ResponseM → Except JsValue ResponseM)

/-- `request.ts` lines 335–342: the built-in auth hook sets the
`Cookie` header when the resolved token is truthy (non-empty) and
otherwise returns the request unchanged. -/
def authOnRequest (finalAccessToken : String) (req : RequestM) : RequestM :=
  if finalAccessToken ≠ "" then
    { req with headers := hset req.headers "Cookie" ("auth-token=" ++ finalAccessToken) }
  else req

/-- The built-in credential-injection middleware entry. -/
def authMiddleware (finalAccessToken : String) : MwEntry :=
  { onRequest := some (fun r => .ok (authOnRequest finalAccessToken r)),
    onResponse := none }

/-- The built-in debug middleware (`request.ts` lines 50–155): its hooks
log to the console and return the request/response they received. -/
def debugMiddleware : MwEntry :=
  { onRequest := some (fun r => .ok r), onResponse := some (fun r => .ok r) }

/-- `request.ts` lines 346–350: the assembled middleware chain. -/
def allMiddleware (userMiddleware : List MwEntry) (debug : Bool)
    (finalAccessToken : String) : List MwEntry :=
  authMiddleware finalAccessToken :: ((if debug then [debugMiddleware] else []) ++ userMiddleware)

/-- `request.ts` lines 354–358: run every entry's `onRequest` in order,
threading the request; the first thrown value aborts. -/
def runOnRequest : List MwEntry → RequestM → Except JsValue RequestM
  | [], r => .ok r
  | mw :: rest, r =>
    match mw.onRequest with
    | some f =>
      match f r with
      | .ok r2 => runOnRequest rest r2
      | .error e => .error e
    | none => runOnRequest rest r

/-- `request.ts` lines 376–381: the backwards index loop
`for (i = length - 1; i >= 0; i--)`, applying `onResponse` hooks.  The
`Nat` argument is the number of entries still to visit, so entry `i - 1`
is visited next. -/
def runOnResponseFrom (mws : List MwEntry) : Nat → ResponseM → Except JsValue ResponseM
  | 0, r => .ok r
  | i + 1, r =>
    match mws.get? i with
    | some mw =>
      match mw.onResponse with
      | some f =>
        match f r with
        | .ok r2 => runOnResponseFrom mws i r2
        | .error e => .error e
      | none => runOnResponseFrom mws i r
    | none => runOnResponseFrom mws i r

/-- The full backwards traversal of the response hooks. -/
def runOnResponse (mws : List MwEntry) (r : ResponseM) : Except JsValue ResponseM :=
  runOnResponseFrom mws mws.length r

end MiddlewareModel

section ExecutorModel

/-- `PenpotClientConfig` (`src/index.ts`): `middleware` defaults to `[]`
and `debug` to `false` at the destructuring in `sendRequest`, so both are
modelled already-defaulted. -/
structure ClientCfgM where
  baseUrl : String
  accessToken : String
  middleware : List MwEntry
  debug : Bool

/-- `InternalRequestConfig` (`request.ts` lines 33–39). -/
structure ReqCfgM where
  method : String
  path : String
  body : Option JsValue
  headers : Hdrs
  accessToken : Option String

/-- `new URL(path, baseUrl)`; no claim depends on URL resolution, so it
is modelled as concatenation. -/
def urlJoin (baseUrl path : String) : String :=
  baseUrl ++ path

/-- `requestConfig.accessToken ?? accessToken` (`request.ts` line 278). -/
def finalToken (override : Option String) (clientToken : String) : String :=
  override.getD clientToken

/-- The full `sendRequest` pipeline (`request.ts` lines 263–420) over an
explicit transport: body shaping, middleware assembly, request-phase
hooks, dispatch, response-phase hooks, then status check and decode. -/
def sendRequestM (transport : RequestM → Except JsValue ResponseM)
    (cfg : ClientCfgM) (rc : ReqCfgM) : Except ExecError JsValue :=
  let finalAccessToken := finalToken rc.accessToken cfg.accessToken
  let shaped := shapeBody rc.body rc.headers
  let request : RequestM :=
    { method := rc.method, url := urlJoin cfg.baseUrl rc.path,
      headers := shaped.2, body := shaped.1 }
  let mws := allMiddleware cfg.middleware cfg.debug finalAccessToken
  match runOnRequest mws request with
  | .error e => .error (.apiClient "Middleware `onRequest` error" (some e))
  | .ok request2 =>
    match transport request2 with
    | .error e => .error (.apiClient "Network request failed" (some e))
    | .ok response =>
      match runOnResponse mws response with
      | .error e => .error (.apiClient "Middleware `onResponse` error" (some e))
      | .ok response2 => handleResponse response2

/-- The two-branch `ApiResponse` of `requestBuilder.ts`. -/
structure ApiResponseM where
  data : Option JsValue
  error : Option ExecError

/-- `RequestBuilder.exec` (`requestBuilder.ts` lines 88–95): the
`try`/`catch` around `sendRequest` mapped over its outcome. -/
def execResult (outcome : Except ExecError JsValue) : ApiResponseM :=
  match outcome with
  | .ok d => { data := some d, error := none }
  | .error e => { data := none, error := some e }

/-- `RequestBuilder.exec` end to end: execute `sendRequest` and convert
the outcome into the two-branch result. -/
def execM (transport : RequestM → Except JsValue ResponseM)
    (cfg : ClientCfgM) (rc : ReqCfgM) : ApiResponseM :=
  execResult (sendRequestM transport cfg rc)

end ExecutorModel

/-- Application of one entry's `onRequest` hook (absent hooks leave the
request unchanged). -/
def applyOnReq (mw : MwEntry) (r : RequestM) : Except JsValue RequestM :=
  match mw.onRequest with
  | some f => f r
  | none => .ok r

/-- Application of one entry's `onResponse` hook (absent hooks leave the
response unchanged). -/
def applyOnRes (mw : MwEntry) (r : ResponseM) : Except JsValue ResponseM :=
  match mw.onResponse with
  | some f => f r
  | none => .ok r

/-! ## Theorems -/

/-- C1: `RequestBuilder.exec` resolves with a `Result` having exactly one
branch populated — either `data` set and `error` null, or `data` null and
`error` set — and every error raised by `sendRequest` becomes the `error`
branch. -/
theorem C1_exec_two_branch (transport : RequestM → Except JsValue ResponseM)
    (cfg : ClientCfgM) (rc : ReqCfgM) :
    (∃ d, execM transport cfg rc = { data := some d, error := none } ∧
      sendRequestM transport cfg rc = .ok d) ∨
    (∃ e, execM transport cfg rc = { data := none, error := some e } ∧
      sendRequestM transport cfg rc = .error e) := by
  cases h : sendRequestM transport cfg rc with
  | ok d => exact Or.inl ⟨d, by simp [execM, execResult, h], rfl⟩
  | error e => exact Or.inr ⟨e, by simp [execM, execResult, h], rfl⟩

/-- C7 (code bug): for a file-bearing payload with no `name` field, the
file part is appended with filename `"undefined"` — `String(params.name)`
coerces the missing property to the truthy string `"undefined"`, so the
`|| "untitled"` fallback never applies — instead of the documented
`"untitled"`. -/
theorem C7_missing_name_yields_undefined :
    buildForm [("file", JsValue.binary [1, 2, 3])]
      = [FormPart.filePart "file" [1, 2, 3] "undefined"] ∧
    shapeBody (some (.obj [("file", .binary [1, 2, 3])])) []
      = (some (.formBody [FormPart.filePart "file" [1, 2, 3] "undefined"]), []) ∧
    "undefined" ≠ "untitled" := by
  refine ⟨?_, ?_, by decide⟩ <;>
    simp [buildForm, shapeBody, isFileUpload, jsLookup, jsToString, jsOrString,
      fileBytes, hdel, List.filter, List.filterMap]

/-- C9: if the event stream is exhausted without any `end` or `error`
event having been observed, the extractor rejects with the
unexpected-end `ClientError`; such a stream is never resolved as
success. -/
theorem C9_stream_premature_end (evs : List SseEvent)
    (h : ∀ e ∈ evs, e.name ≠ some "end" ∧ e.name ≠ some "error") :
    runSseEvents evs
      = .error (.apiClient
          "SSE stream ended unexpectedly without a valid 'end' event containing the file ID."
          none) := by
  induction evs with
  | nil => rfl
  | cons e rest ih =>
    rcases h e (by simp) with ⟨hn1, hn2⟩
    simp only [runSseEvents, beq_eq_false_iff_ne.mpr hn1, beq_eq_false_iff_ne.mpr hn2,
      Bool.and_false, Bool.false_and, Bool.false_eq_true, if_false]
    exact ih fun e2 he2 => h e2 (by simp [he2])

/-- Witness for C9 at a concrete progress-only stream. -/
theorem C9_stream_premature_end_witness :
    runSseEvents [⟨true, some "progress", some "p"⟩]
      = .error (.apiClient
          "SSE stream ended unexpectedly without a valid 'end' event containing the file ID."
          none) :=
  C9_stream_premature_end _ (by decide)

/-- C10: when the effective credential resolves to the empty string the
auth hook injects no `Cookie` header at all (the request is returned
unchanged); in particular an empty-string per-call override yields an
empty effective credential whatever the client-wide credential is. -/
theorem C10_empty_token_no_cookie (override : Option String) (clientTok : String)
    (r : RequestM) (h : finalToken override clientTok = "") :
    authOnRequest (finalToken override clientTok) r = r ∧
    ∀ t : String, finalToken (some "") t = "" := by
  refine ⟨?_, fun t => rfl⟩
  rw [h, authOnRequest]
  simp

/-- Witness for C10: empty override against client credential `"tok"`. -/
theorem C10_empty_token_no_cookie_witness :
    authOnRequest (finalToken (some "") "tok") (⟨"POST", "u", [], none⟩ : RequestM)
        = (⟨"POST", "u", [], none⟩ : RequestM) ∧
    ∀ t : String, finalToken (some "") t = "" :=
  C10_empty_token_no_cookie (some "") "tok" _ rfl

/-- An errored accumulator absorbs the remaining folds. -/
theorem foldl_bind_error {α β : Type} (g : MwEntry → α → Except β α)
    (l : List MwEntry) (e : β) :
    l.foldl (fun acc mw => acc >>= g mw) (.error e) = .error e := by
  induction l with
  | nil => rfl
  | cons x xs ih =>
    have h : ((Except.error e : Except β α) >>= g x) = .error e := rfl
    simpa [h] using ih

/-- The request-phase loop threads the request through every entry's
`onRequest` hook in list order. -/
theorem runOnRequest_eq_foldl (mws : List MwEntry) (r : RequestM) :
    runOnRequest mws r
      = mws.foldl (fun acc mw => acc >>= applyOnReq mw) (.ok r) := by
  induction mws generalizing r with
  | nil => rfl
  | cons mw rest ih =>
    simp only [runOnRequest, List.foldl_cons]
    have hb : ((Except.ok r : Except JsValue RequestM) >>= applyOnReq mw)
        = applyOnReq mw r := rfl
    rw [hb]
    cases hmw : mw.onRequest with
    | none => simp [applyOnReq, hmw, ih r]
    | some f =>
      cases hf : f r with
      | ok r2 => simp [applyOnReq, hmw, hf, ih r2]
      | error e => simp [applyOnReq, hmw, hf, foldl_bind_error]

/-- The backwards index loop over the first `n` entries equals the
forward threading of those entries reversed. -/
theorem runOnResponseFrom_eq (mws : List MwEntry) :
    ∀ n, n ≤ mws.length → ∀ r, runOnResponseFrom mws n r
      = ((mws.take n).reverse).foldl (fun acc mw => acc >>= applyOnRes mw) (.ok r) := by
  intro n
  induction n with
  | zero => intro _ r; rfl
  | succ n ih =>
    intro hn r
    have hlt : n < mws.length := Nat.lt_of_succ_le hn
    have hget2 : mws.get? n = some mws[n] := by
      rw [List.get?_eq_getElem?, List.getElem?_eq_getElem hlt]
    have htake : (mws.take (n + 1)).reverse = mws[n] :: (mws.take n).reverse := by
      rw [List.take_succ, List.getElem?_eq_getElem hlt]
      simp
    rw [htake, List.foldl_cons]
    have hb : ((Except.ok r : Except JsValue ResponseM) >>= applyOnRes mws[n])
        = applyOnRes mws[n] r := rfl
    rw [hb]
    simp only [runOnResponseFrom, hget2]
    cases hmw : mws[n].onResponse with
    | none =>
      have ha : applyOnRes mws[n] r = .ok r := by simp [applyOnRes, hmw]
      rw [ha]
      simp only [hmw]
      exact ih (Nat.le_of_succ_le hn) r
    | some f =>
      cases hf : f r with
      | ok r2 =>
        have ha : applyOnRes mws[n] r = .ok r2 := by simp [applyOnRes, hmw, hf]
        rw [ha]
        simp only [hmw, hf]
        exact ih (Nat.le_of_succ_le hn) r2
      | error e =>
        have ha : applyOnRes mws[n] r = .error e := by simp [applyOnRes, hmw, hf]
        rw [ha]
        simp only [hmw, hf]
        exact (foldl_bind_error _ _ _).symm

/-- The full response-phase loop equals the forward threading of the
reversed middleware list. -/
theorem runOnResponse_eq_rev_foldl (mws : List MwEntry) (r : ResponseM) :
    runOnResponse mws r
      = (mws.reverse).foldl (fun acc mw => acc >>= applyOnRes mw) (.ok r) := by
  have h := runOnResponseFrom_eq mws mws.length le_rfl r
  simpa [runOnResponse, List.take_length] using h

/-- C4: within one execution the middleware chain is the built-in
credential entry, then the built-in debug entry when debug is enabled,
then the user entries in registration order; the `onRequest` hooks
thread the request through that chain in order, and the `onResponse`
hooks thread the response through the same chain in reverse order. -/
theorem C4_middleware_order (user : List MwEntry) (debug : Bool) (tok : String)
    (r : RequestM) (res : ResponseM) :
    allMiddleware user debug tok
      = authMiddleware tok :: ((if debug then [debugMiddleware] else []) ++ user) ∧
    runOnRequest (allMiddleware user debug tok) r
      = (allMiddleware user debug tok).foldl
          (fun acc mw => acc >>= applyOnReq mw) (.ok r) ∧
    runOnResponse (allMiddleware user debug tok) res
      = ((allMiddleware user debug tok).reverse).foldl
          (fun acc mw => acc >>= applyOnRes mw) (.ok res) :=
  ⟨rfl, runOnRequest_eq_foldl _ r, runOnResponse_eq_rev_foldl _ res⟩

/-- Every rejection produced while handling an `end` event is an
`ApiClientError`. -/
theorem sseEndResult_error_client (data : String) (e : ExecError)
    (h : sseEndResult data = .error e) : ∃ m c, e = .apiClient m c := by
  unfold sseEndResult at h
  repeat' split at h
  all_goals first
    | (cases h; exact ⟨_, _, rfl⟩)
    | exact absurd h (by simp)

/-- Every rejection produced for an `error` event is an
`ApiClientError`. -/
theorem sseErrorResult_client (data : String) : ∃ m c, sseErrorResult data = .apiClient m c := by
  unfold sseErrorResult
  split
  · exact ⟨_, _, rfl⟩
  · exact ⟨_, _, rfl⟩

/-- Every rejection of the SSE event loop is an `ApiClientError`. -/
theorem runSseEvents_error_client (evs : List SseEvent) (e : ExecError)
    (h : runSseEvents evs = .error e) : ∃ m c, e = .apiClient m c := by
  induction evs with
  | nil =>
    rw [runSseEvents] at h
    cases h
    exact ⟨_, _, rfl⟩
  | cons ev rest ih =>
    rw [runSseEvents] at h
    split_ifs at h
    · exact sseEndResult_error_client _ _ h
    · cases h
      exact sseErrorResult_client _
    · exact ih h

/-- Every rejection of the SSE response handler is an
`ApiClientError`. -/
theorem handleSseResponse_error_client (r : ResponseM) (e : ExecError)
    (h : handleSseResponse r = .error e) : ∃ m c, e = .apiClient m c := by
  unfold handleSseResponse at h
  split at h
  · cases h; exact ⟨_, _, rfl⟩
  · exact runSseEvents_error_client _ _ h
  · exact runSseEvents_error_client _ _ h
  · exact runSseEvents_error_client _ _ h

/-- The decode step fails only with an `ApiClientError` or with the raw
`SyntaxError` of the unguarded `response.json()`. -/
theorem applyDecoder_error_kinds (k : ContentKind) (r : ResponseM) (e : ExecError)
    (h : applyDecoder k r = .error e) :
    (∃ m c, e = .apiClient m c) ∨ ∃ m, e = .jsError "SyntaxError" m := by
  unfold applyDecoder at h
  split at h
  · split at h
    · exact absurd h (by simp)
    · cases h; exact Or.inr ⟨_, rfl⟩
  · exact absurd h (by simp)
  · exact Or.inl (handleSseResponse_error_client _ _ h)
  · exact absurd h (by simp)

/-- An error produced by the error-body decoding step is exactly the
raw `TypeError` of the consumed-body `response.text()` fallback. -/
theorem errorDetailsOutcome_error (b : RespBody) (e : ExecError)
    (h : errorDetailsOutcome b = .error e) :
    e = .jsError "TypeError" "Body already consumed" := by
  unfold errorDetailsOutcome at h
  repeat' split at h
  all_goals first
    | (cases h; rfl)
    | exact absurd h (by simp)

/-- A non-null error body that parses as JSON yields those details. -/
theorem errorDetailsOutcome_json (b : RespBody) (j : JsValue)
    (h : jsonParse b.asText = some j) : errorDetailsOutcome b = .ok j := by
  cases b with
  | nullBody =>
    have hn : jsonParse (RespBody.asText .nullBody) = none := rfl
    rw [hn] at h
    exact absurd h (by simp)
  | text s => simp [errorDetailsOutcome, h]
  | bytes bs => simp [errorDetailsOutcome, h]
  | stream evs => simp [errorDetailsOutcome, h]

/-- A non-null error body that does not parse as JSON makes the text
fallback throw the raw `TypeError`. -/
theorem errorDetailsOutcome_fail (b : RespBody) (hb : b ≠ .nullBody)
    (h : jsonParse b.asText = none) :
    errorDetailsOutcome b = .error (.jsError "TypeError" "Body already consumed") := by
  cases b with
  | nullBody => exact absurd rfl hb
  | text s => simp [errorDetailsOutcome, h]
  | bytes bs => simp [errorDetailsOutcome, h]
  | stream evs => simp [errorDetailsOutcome, h]

/-- Classification of every error the response-handling stage can
raise. -/
theorem handleResponse_error_kinds (r : ResponseM) (e : ExecError)
    (h : handleResponse r = .error e) :
    e.isTaxonomy = true ∨ (∃ m, e = .jsError "SyntaxError" m) ∨
      ∃ m, e = .jsError "TypeError" m := by
  unfold handleResponse at h
  split at h
  · split at h
    · cases h; exact Or.inl rfl
    case h_2 e2 heq =>
      cases h
      exact Or.inr (Or.inr ⟨_, errorDetailsOutcome_error _ _ heq⟩)
  · rcases applyDecoder_error_kinds _ _ _ h with ⟨m, c, rfl⟩ | hm
    · exact Or.inl rfl
    · exact Or.inr (Or.inl hm)

/-- C3 counterexample: a 304 (null-body) response produces an
`ApiHttpError` even though its status is below 400 — the check is
`response.ok` (outside 200–299), not `status >= 400`; and a 404 with a
non-null unparseable body raises a raw `TypeError`, not an `HttpError`
with text details — `response.json()` consumed the body, so the
`response.text()` fallback throws. -/
theorem C3_counterexample :
    (304 < 400 ∧
      handleResponse ⟨304, "Not Modified", [], .nullBody⟩
        = .error (.apiHttp 304 "Not Modified" (.str ""))) ∧
    handleResponse ⟨404, "Not Found", [], .text "garbage"⟩
      = .error (.jsError "TypeError" "Body already consumed") :=
  ⟨⟨by norm_num, rfl⟩, rfl⟩

/-- C3 amended: the executor raises `HttpError` exactly for responses
whose status is outside the 200–299 success range (`response.ok` false)
and whose error body is null (details then the empty string, the only
case the `response.text()` fallback survives) or decodes as JSON
(details then the decoded value); a non-success response whose non-null
body fails to decode raises a raw `TypeError` from the consumed-body
`response.text()` fallback instead of an `HttpError`; successful
statuses never produce an `HttpError`. -/
theorem C3_http_error_on_not_ok (r : ResponseM) :
    (responseOk r.status = false →
      (r.body = .nullBody →
        handleResponse r = .error (.apiHttp r.status r.statusText (.str ""))) ∧
      (∀ j, jsonParse r.body.asText = some j →
        handleResponse r = .error (.apiHttp r.status r.statusText j)) ∧
      (r.body ≠ .nullBody → jsonParse r.body.asText = none →
        handleResponse r = .error (.jsError "TypeError" "Body already consumed"))) ∧
    (responseOk r.status = true →
      ∀ s st d, handleResponse r ≠ .error (.apiHttp s st d)) := by
  refine ⟨fun h => ⟨?_, ?_, ?_⟩, ?_⟩
  · intro hb
    simp [handleResponse, h, hb, errorDetailsOutcome]
  · intro j hj
    simp [handleResponse, h, errorDetailsOutcome_json r.body j hj]
  · intro hb hj
    simp [handleResponse, h, errorDetailsOutcome_fail r.body hb hj]
  · intro h s st d hc
    simp only [handleResponse, h, Bool.not_true, Bool.false_eq_true, if_false] at hc
    rcases applyDecoder_error_kinds _ _ _ hc with ⟨m, c, he⟩ | ⟨m, he⟩ <;> simp at he

/-- Witness for C3 at a concrete 404 with a JSON body. -/
theorem C3_http_error_on_not_ok_witness :
    handleResponse ⟨404, "Not Found", [], .text "[\"object-not-found\"]"⟩
      = .error (.apiHttp 404 "Not Found" (.arr [.str "object-not-found"])) :=
  ((C3_http_error_on_not_ok ⟨404, "Not Found", [], .text "[\"object-not-found\"]"⟩).1
      rfl).2.1 (.arr [.str "object-not-found"]) rfl

/-- C6 counterexample: a 200 response declared `application/json` whose
body is not valid JSON makes `sendRequest` raise a raw `SyntaxError`
(the unguarded `response.json()`), which is not a member of the error
taxonomy. -/
theorem C6_counterexample :
    sendRequestM
        (fun _ => .ok ⟨200, "OK", [("content-type", "application/json")], .text "garbage"⟩)
        ⟨"b", "t", [], false⟩ ⟨"POST", "/p", none, [], none⟩
      = .error (.jsError "SyntaxError" "Unexpected token in JSON: garbage") ∧
    (ExecError.jsError "SyntaxError" "Unexpected token in JSON: garbage").isTaxonomy = false :=
  ⟨rfl, rfl⟩

/-- C6 amended: every error `sendRequest` raises from middleware
failure, network failure or stream failure is a taxonomy member, and a
non-success status with a null or JSON-decodable body raises
`ApiHttpError`; but two raw errors escape unwrapped: the `SyntaxError`
of a JSON decode failure on a successful response, and the `TypeError`
of the consumed-body `response.text()` fallback on a non-success
response with a non-null unparseable body. -/
theorem C6_error_taxonomy_amended (transport : RequestM → Except JsValue ResponseM)
    (cfg : ClientCfgM) (rc : ReqCfgM) (e : ExecError)
    (h : sendRequestM transport cfg rc = .error e) :
    e.isTaxonomy = true ∨ (∃ m, e = .jsError "SyntaxError" m) ∨
      ∃ m, e = .jsError "TypeError" m := by
  simp only [sendRequestM] at h
  split at h
  · cases h; exact Or.inl rfl
  · split at h
    · cases h; exact Or.inl rfl
    · split at h
      · cases h; exact Or.inl rfl
      · exact handleResponse_error_kinds _ _ h

/-- Witness for C6 at the concrete malformed-JSON success response. -/
theorem C6_error_taxonomy_amended_witness :
    (ExecError.jsError "SyntaxError" "Unexpected token in JSON: garbage").isTaxonomy = true ∨
      (∃ m, ExecError.jsError "SyntaxError" "Unexpected token in JSON: garbage"
        = ExecError.jsError "SyntaxError" m) ∨
      ∃ m, ExecError.jsError "SyntaxError" "Unexpected token in JSON: garbage"
        = ExecError.jsError "TypeError" m :=
  C6_error_taxonomy_amended
    (fun _ => .ok ⟨200, "OK", [("content-type", "application/json")], .text "garbage"⟩)
    ⟨"b", "t", [], false⟩ ⟨"POST", "/p", none, [], none⟩ _ rfl

/-- C2 counterexample: an `end` event whose data parses to a TWO-element
array still resolves successfully (the code checks `length > 0`, not
`length === 1`), contradicting "resolves exactly when the parsed value
is a single-element array". -/
theorem C2_counterexample :
    jsonParse "[\"~ux\",\"y\"]"
      = some (.arr [JsValue.str "~ux", JsValue.str "y"]) ∧
    ([JsValue.str "~ux", JsValue.str "y"] : List JsValue).length = 2 ∧
    sseEndResult "[\"~ux\",\"y\"]" = .ok (.obj [("fileId", .str "x")]) :=
  ⟨rfl, rfl, rfl⟩

/-- C2 amended: for an `end` event whose data parses as JSON, the
extractor resolves successfully exactly when the parsed value is a
NON-EMPTY array whose FIRST element is a string beginning with `~u`,
resolving to the record with that element's prefix stripped; any
deviation rejects with a `ClientError` whose message names the literal
offending data. -/
theorem C2_end_event_amended (data : String) (v : JsValue)
    (hp : jsonParse data = some v) :
    (∃ s rest, v = JsValue.arr (JsValue.str s :: rest) ∧ strStarts s "~u" = true ∧
       sseEndResult data = .ok (.obj [("fileId", .str (strDrop s 2))])) ∨
    ((¬ ∃ s rest, v = JsValue.arr (JsValue.str s :: rest) ∧ strStarts s "~u" = true) ∧
      sseEndResult data
        = .error (.apiClient ("Unexpected SSE 'end' event data format: " ++ data) none)) := by
  have hne : ∀ w : JsValue, (∀ s rest, w ≠ JsValue.arr (JsValue.str s :: rest)) →
      (¬ ∃ s rest, w = JsValue.arr (JsValue.str s :: rest) ∧ strStarts s "~u" = true) := by
    rintro w hw ⟨s, rest, hv, -⟩
    exact hw s rest hv
  rcases v with _ | _ | b | n | s | xs | flds | bs
  case undef =>
    refine Or.inr ⟨hne _ (by intro s rest h; cases h), ?_⟩
    unfold sseEndResult; rw [hp]
  case null =>
    refine Or.inr ⟨hne _ (by intro s rest h; cases h), ?_⟩
    unfold sseEndResult; rw [hp]
  case bool =>
    refine Or.inr ⟨hne _ (by intro s rest h; cases h), ?_⟩
    unfold sseEndResult; rw [hp]
  case num =>
    refine Or.inr ⟨hne _ (by intro s rest h; cases h), ?_⟩
    unfold sseEndResult; rw [hp]
  case str =>
    refine Or.inr ⟨hne _ (by intro s2 rest h; cases h), ?_⟩
    unfold sseEndResult; rw [hp]
  case obj =>
    refine Or.inr ⟨hne _ (by intro s rest h; cases h), ?_⟩
    unfold sseEndResult; rw [hp]
  case binary =>
    refine Or.inr ⟨hne _ (by intro s rest h; cases h), ?_⟩
    unfold sseEndResult; rw [hp]
  case arr =>
    rcases xs with _ | ⟨first, rest⟩
    · refine Or.inr ⟨hne _ (by intro s rest h; simp at h), ?_⟩
      unfold sseEndResult; rw [hp]
    · rcases first with _ | _ | b | n | s | xs2 | flds | bs
      case str =>
        by_cases hst : strStarts s "~u" = true
        · refine Or.inl ⟨s, rest, rfl, hst, ?_⟩
          unfold sseEndResult; rw [hp]
          simp [hst]
        · refine Or.inr ⟨?_, ?_⟩
          · rintro ⟨s2, rest2, hv, hst2⟩
            simp only [JsValue.arr.injEq, List.cons.injEq, JsValue.str.injEq] at hv
            rcases hv with ⟨hs2, -⟩
            exact hst (hs2 ▸ hst2)
          · unfold sseEndResult; rw [hp]
            simp [hst]
      all_goals
        refine Or.inr ⟨?_, ?_⟩
      all_goals first
        | (rintro ⟨s2, rest2, hv, -⟩;
           simp only [JsValue.arr.injEq, List.cons.injEq] at hv;
           rcases hv with ⟨hv1, -⟩; cases hv1)
        | (unfold sseEndResult; rw [hp])

/-- Witness for C2 at the concrete single-element payload. -/
theorem C2_end_event_amended_witness :
    sseEndResult "[\"~uabc\"]" = .ok (.obj [("fileId", .str "abc")]) := by
  have h := C2_end_event_amended "[\"~uabc\"]" (JsValue.arr [JsValue.str "~uabc"]) rfl
  rcases h with ⟨s, rest, hv, -, hres⟩ | ⟨hneg, -⟩
  · simp only [JsValue.arr.injEq, List.cons.injEq, JsValue.str.injEq] at hv
    rcases hv with ⟨hs, hrest⟩
    subst hs
    exact hres
  · exact absurd ⟨"~uabc", [], rfl, rfl⟩ hneg

/-- `Headers.set` followed by `Headers.get` of the same key returns the
value just set. -/
theorem hget_hset (hs : Hdrs) (k v : String) : hget (hset hs k v) k = some v := by
  unfold hget hset
  induction hs with
  | nil => simp [List.find?]
  | cons p rest _ih =>
    by_cases h : lowerStr p.1 = lowerStr k
    · simp [List.filter_cons, h, _ih]
    · simp [List.filter_cons, List.find?_cons, h, _ih]

/-- C5 counterexample: with client credential `"tok"` and an
empty-string per-call override, the outgoing request carries no `Cookie`
header at all — the override value does not "appear in place of tok". -/
theorem C5_counterexample :
    finalToken (some "") "tok" = "" ∧
    hget (authOnRequest (finalToken (some "") "tok")
        (⟨"POST", "u", [], none⟩ : RequestM)).headers "Cookie" = none :=
  ⟨rfl, rfl⟩

/-- C5 amended: a request dispatched with no override and a non-empty
client credential carries `Cookie: auth-token=<client credential>`; a
non-empty per-call override appears in place of the client credential;
the override always takes precedence in resolving the effective
credential (an empty effective credential injects no cookie, see the
empty-credential theorem). -/
theorem C5_cookie_injection (clientTok : String) (override : Option String) (r : RequestM) :
    (override = none → clientTok ≠ "" →
      hget (authOnRequest (finalToken override clientTok) r).headers "Cookie"
        = some ("auth-token=" ++ clientTok)) ∧
    (∀ t, override = some t → t ≠ "" →
      hget (authOnRequest (finalToken override clientTok) r).headers "Cookie"
        = some ("auth-token=" ++ t)) ∧
    (∀ t, override = some t → finalToken override clientTok = t) := by
  refine ⟨?_, ?_, ?_⟩
  · rintro rfl hne
    simp only [finalToken, Option.getD_none]
    unfold authOnRequest
    rw [if_pos hne]
    exact hget_hset _ _ _
  · rintro t rfl hne
    simp only [finalToken, Option.getD_some]
    unfold authOnRequest
    rw [if_pos hne]
    exact hget_hset _ _ _
  · rintro t rfl
    rfl

/-- Witness for C5: override `"ovr"` against client credential
`"tok"`. -/
theorem C5_cookie_injection_witness :
    hget (authOnRequest (finalToken (some "ovr") "tok")
        (⟨"POST", "u", [], none⟩ : RequestM)).headers "Cookie"
      = some ("auth-token=" ++ "ovr") :=
  (C5_cookie_injection "tok" (some "ovr") _).2.1 "ovr" rfl (by decide)

/-- C8: on a successful response exactly one decoder runs, selected as a
function of the declared content-type header alone; a content type
declaring `text/event-stream` (and not containing the JSON or
octet-stream markers tested before it) selects the stream extractor,
whose decoder is `handleSseResponse` — the body is never JSON-parsed
directly. -/
theorem C8_single_decoder (r : ResponseM) (h : responseOk r.status = true) :
    handleResponse r
      = applyDecoder (classifyContentType ((hget r.headers "content-type").getD "")) r ∧
    (∀ ct, strIncludes ct "application/json" = false →
      strIncludes ct "application/octet-stream" = false →
      strIncludes ct "text/event-stream" = true →
      classifyContentType ct = .eventStream) ∧
    (∀ r2, applyDecoder .eventStream r2 = handleSseResponse r2) := by
  refine ⟨?_, ?_, fun r2 => rfl⟩
  · simp [handleResponse, h]
  · intro ct h1 h2 h3
    simp [classifyContentType, h1, h2, h3]

/-- Witness for C8 at a concrete event-stream response. -/
theorem C8_single_decoder_witness :
    handleResponse ⟨200, "OK", [("content-type", "text/event-stream")], .stream []⟩
      = applyDecoder (classifyContentType
          ((hget [("content-type", "text/event-stream")] "content-type").getD ""))
          ⟨200, "OK", [("content-type", "text/event-stream")], .stream []⟩ :=
  (C8_single_decoder ⟨200, "OK", [("content-type", "text/event-stream")], .stream []⟩ rfl).1
